import Mathlib

/-!
Shallow embedding of the barcode encoder (`src/barcode_encode.rs`):
Code 128 (subsets B/C), Code 39, EAN-13 and UPC-A.  Text is modelled as
`List Char`, Rust `Vec<bool>` as `List Bool`, fallible functions return
`Option`.  Fixed pattern tables are transcribed verbatim from the source.
-/

namespace BarcodeEnc

inductive BarcodeFormat where
  | Code128
  | Code39
  | Ean13
  | UpcA
  deriving DecidableEq

structure Barcode where
  modules : List Bool
  text : List Char
  format : BarcodeFormat
  deriving DecidableEq

/-- Rust `char::is_ascii_digit`. -/
def isAsciiDigit (c : Char) : Bool := 48 ≤ c.toNat && c.toNat ≤ 57

/-- Rust `char::is_ascii_uppercase`. -/
def isAsciiUpper (c : Char) : Bool := 65 ≤ c.toNat && c.toNat ≤ 90

/-- Rust `char::is_ascii_lowercase`. -/
def isAsciiLower (c : Char) : Bool := 97 ≤ c.toNat && c.toNat ≤ 122

/-- Rust `char::to_ascii_uppercase`: subtract 32 from an ASCII lowercase letter. -/
def toAsciiUpper (c : Char) : Char :=
  if isAsciiLower c then Char.ofNat (c.toNat - 32) else c

/-- The character predicate shared by `is_valid(_, Code39)` and rule 3 of
`auto_detect`: uppercase letter, digit, or one of space `-` `.` `$` `/` `+` `%`. -/
def code39ValidChar (c : Char) : Bool :=
  isAsciiUpper c || isAsciiDigit c || (" -.$/+%".toList.contains c)

/-- `is_valid` from the source. -/
def is_valid (cs : List Char) (format : BarcodeFormat) : Bool :=
  match format with
  | .Code128 => cs.all fun c => c.toNat < 128
  | .Code39 => cs.all code39ValidChar
  | .Ean13 => decide (cs.length ≤ 13) && cs.all isAsciiDigit
  | .UpcA => decide (cs.length ≤ 12) && cs.all isAsciiDigit

/-- `auto_detect` from the source: ordered rule list, first match wins. -/
def auto_detect (cs : List Char) : BarcodeFormat :=
  let all_digits := cs.all isAsciiDigit
  if all_digits && cs.length == 13 then .Ean13
  else if all_digits && cs.length == 12 then .UpcA
  else if cs.all code39ValidChar then .Code39
  else .Code128
def CODE128_PATTERNS : List (List Nat) := [
  [2, 1, 2, 2, 2, 2],
  [2, 2, 2, 1, 2, 2],
  [2, 2, 2, 2, 2, 1],
  [1, 2, 1, 2, 2, 3],
  [1, 2, 1, 3, 2, 2],
  [1, 3, 1, 2, 2, 2],
  [1, 2, 2, 2, 1, 3],
  [1, 2, 2, 3, 1, 2],
  [1, 3, 2, 2, 1, 2],
  [2, 2, 1, 2, 1, 3],
  [2, 2, 1, 3, 1, 2],
  [2, 3, 1, 2, 1, 2],
  [1, 1, 2, 2, 3, 2],
  [1, 2, 2, 1, 3, 2],
  [1, 2, 2, 2, 3, 1],
  [1, 1, 3, 2, 2, 2],
  [1, 2, 3, 1, 2, 2],
  [1, 2, 3, 2, 2, 1],
  [2, 2, 3, 2, 1, 1],
  [2, 2, 1, 1, 3, 2],
  [2, 2, 1, 2, 3, 1],
  [2, 1, 3, 2, 1, 2],
  [2, 2, 3, 1, 1, 2],
  [3, 1, 2, 1, 3, 1],
  [3, 1, 1, 2, 2, 2],
  [3, 2, 1, 1, 2, 2],
  [3, 2, 1, 2, 2, 1],
  [3, 1, 2, 2, 1, 2],
  [3, 2, 2, 1, 1, 2],
  [3, 2, 2, 2, 1, 1],
  [2, 1, 2, 1, 2, 3],
  [2, 1, 2, 3, 2, 1],
  [2, 3, 2, 1, 2, 1],
  [1, 1, 1, 3, 2, 3],
  [1, 3, 1, 1, 2, 3],
  [1, 3, 1, 3, 2, 1],
  [1, 1, 2, 3, 2, 2],
  [1, 3, 2, 1, 2, 2],
  [1, 3, 2, 3, 2, 0],
  [2, 1, 1, 3, 1, 3],
  [2, 3, 1, 1, 1, 3],
  [2, 3, 1, 3, 1, 1],
  [1, 1, 2, 1, 3, 3],
  [1, 1, 2, 3, 3, 1],
  [1, 3, 2, 1, 3, 1],
  [1, 1, 3, 1, 2, 3],
  [1, 1, 3, 3, 2, 1],
  [1, 3, 3, 1, 2, 1],
  [3, 1, 3, 1, 2, 1],
  [2, 1, 1, 3, 3, 1],
  [2, 3, 1, 1, 3, 1],
  [2, 1, 3, 1, 1, 3],
  [2, 1, 3, 3, 1, 1],
  [2, 1, 3, 1, 3, 1],
  [3, 1, 1, 1, 2, 3],
  [3, 1, 1, 3, 2, 1],
  [3, 3, 1, 1, 2, 1],
  [3, 1, 2, 1, 1, 3],
  [3, 1, 2, 3, 1, 1],
  [3, 3, 2, 1, 1, 1],
  [2, 1, 1, 2, 1, 3],
  [2, 1, 1, 2, 3, 1],
  [2, 3, 1, 2, 1, 1],
  [1, 1, 2, 2, 1, 3],
  [1, 1, 2, 2, 3, 1],
  [1, 3, 2, 2, 1, 1],
  [1, 1, 1, 1, 3, 3],
  [1, 3, 1, 1, 3, 1],
  [1, 1, 3, 1, 1, 3],
  [1, 1, 3, 3, 1, 1],
  [1, 3, 3, 1, 1, 1],
  [3, 1, 1, 1, 3, 1],
  [3, 1, 3, 1, 1, 1],
  [2, 1, 1, 1, 3, 3],
  [2, 1, 3, 1, 3, 0],
  [3, 1, 1, 2, 1, 2],
  [3, 1, 1, 2, 2, 1],
  [1, 2, 1, 1, 2, 3],
  [1, 2, 1, 3, 2, 1],
  [1, 2, 1, 1, 3, 2],
  [3, 2, 1, 1, 1, 2],
  [1, 1, 1, 2, 2, 3],
  [1, 1, 1, 2, 3, 2],
  [1, 2, 1, 2, 3, 1],
  [1, 2, 3, 2, 1, 1],
  [3, 2, 1, 2, 1, 1],
  [2, 1, 2, 2, 1, 2],
  [1, 1, 2, 1, 2, 3],
  [1, 2, 2, 2, 1, 2],
  [2, 2, 1, 2, 2, 1],
  [2, 1, 1, 1, 2, 3],
  [2, 1, 1, 2, 2, 2],
  [2, 2, 1, 1, 2, 2],
  [2, 2, 2, 1, 1, 2],
  [2, 2, 2, 2, 1, 1],
  [1, 1, 3, 2, 2, 1],
  [1, 1, 2, 2, 2, 2],
  [2, 2, 2, 1, 2, 1],
  [2, 1, 1, 2, 2, 2],
  [3, 1, 2, 2, 2, 1],
  [2, 1, 2, 1, 1, 3],
  [2, 1, 2, 3, 1, 1],
  [1, 2, 1, 1, 2, 3],
  [1, 2, 3, 2, 1, 1],
  [1, 2, 1, 1, 3, 2],
  [1, 1, 3, 1, 2, 3],
  [2, 3, 3, 1, 1, 1]
]

def CODE39_PATTERNS : List (List Nat) := [
  [0, 0, 0, 1, 1, 0, 1, 0, 0],
  [1, 0, 0, 1, 0, 0, 0, 0, 1],
  [0, 0, 1, 1, 0, 0, 0, 0, 1],
  [1, 0, 1, 1, 0, 0, 0, 0, 0],
  [0, 0, 0, 1, 1, 0, 0, 0, 1],
  [1, 0, 0, 1, 1, 0, 0, 0, 0],
  [0, 0, 1, 1, 1, 0, 0, 0, 0],
  [0, 0, 0, 1, 0, 0, 1, 0, 1],
  [1, 0, 0, 1, 0, 0, 1, 0, 0],
  [0, 0, 1, 1, 0, 0, 1, 0, 0],
  [1, 0, 0, 0, 0, 1, 0, 0, 1],
  [0, 0, 1, 0, 0, 1, 0, 0, 1],
  [1, 0, 1, 0, 0, 1, 0, 0, 0],
  [0, 0, 0, 0, 1, 1, 0, 0, 1],
  [1, 0, 0, 0, 1, 1, 0, 0, 0],
  [0, 0, 1, 0, 1, 1, 0, 0, 0],
  [0, 0, 0, 0, 0, 1, 1, 0, 1],
  [1, 0, 0, 0, 0, 1, 1, 0, 0],
  [0, 0, 1, 0, 0, 1, 1, 0, 0],
  [0, 0, 0, 0, 1, 1, 1, 0, 0],
  [1, 0, 0, 0, 0, 0, 0, 1, 1],
  [0, 0, 1, 0, 0, 0, 0, 1, 1],
  [1, 0, 1, 0, 0, 0, 0, 1, 0],
  [0, 0, 0, 0, 1, 0, 0, 1, 1],
  [1, 0, 0, 0, 1, 0, 0, 1, 0],
  [0, 0, 1, 0, 1, 0, 0, 1, 0],
  [0, 0, 0, 0, 0, 0, 1, 1, 1],
  [1, 0, 0, 0, 0, 0, 1, 1, 0],
  [0, 0, 1, 0, 0, 0, 1, 1, 0],
  [0, 0, 0, 0, 1, 0, 1, 1, 0],
  [1, 1, 0, 0, 0, 0, 0, 0, 1],
  [0, 1, 1, 0, 0, 0, 0, 0, 1],
  [1, 1, 1, 0, 0, 0, 0, 0, 0],
  [0, 1, 0, 0, 1, 0, 0, 0, 1],
  [1, 1, 0, 0, 1, 0, 0, 0, 0],
  [0, 1, 1, 0, 1, 0, 0, 0, 0],
  [0, 1, 0, 0, 0, 0, 1, 0, 1],
  [1, 1, 0, 0, 0, 0, 1, 0, 0],
  [0, 1, 0, 1, 0, 1, 0, 0, 0],
  [0, 1, 0, 1, 0, 0, 0, 1, 0],
  [0, 1, 0, 0, 0, 1, 0, 1, 0],
  [0, 0, 0, 1, 0, 1, 0, 1, 0],
  [0, 1, 0, 1, 0, 1, 0, 0, 0],
  [0, 1, 0, 0, 1, 0, 1, 0, 0]
]

def EAN_L_PATTERNS : List (List Bool) := [
  [false, false, false, true, true, false, true],
  [false, false, true, true, false, false, true],
  [false, false, true, false, false, true, true],
  [false, true, true, true, true, false, true],
  [false, true, false, false, false, true, true],
  [false, true, true, false, false, false, true],
  [false, true, false, true, true, true, true],
  [false, true, true, true, false, true, true],
  [false, true, true, false, true, true, true],
  [false, false, false, true, false, true, true]
]

def EAN_G_PATTERNS : List (List Bool) := [
  [false, true, false, false, true, true, true],
  [false, true, true, false, false, true, true],
  [false, false, true, true, false, true, true],
  [false, true, false, false, false, false, true],
  [false, false, true, true, true, false, true],
  [false, true, true, true, false, false, true],
  [false, false, false, false, true, false, true],
  [false, false, true, false, false, false, true],
  [false, false, false, true, false, false, true],
  [false, false, true, false, true, true, true]
]

def EAN_R_PATTERNS : List (List Bool) := [
  [true, true, true, false, false, true, false],
  [true, true, false, false, true, true, false],
  [true, true, false, true, true, false, false],
  [true, false, false, false, false, true, false],
  [true, false, true, true, true, false, false],
  [true, false, false, true, true, true, false],
  [true, false, true, false, false, false, false],
  [true, false, false, false, true, false, false],
  [true, false, false, true, false, false, false],
  [true, true, true, false, true, false, false]
]

def EAN_PARITY : List (List Nat) := [
  [0, 0, 0, 0, 0, 0],
  [0, 0, 1, 0, 1, 1],
  [0, 0, 1, 1, 0, 1],
  [0, 0, 1, 1, 1, 0],
  [0, 1, 0, 0, 1, 1],
  [0, 1, 1, 0, 0, 1],
  [0, 1, 1, 1, 0, 0],
  [0, 1, 0, 1, 0, 1],
  [0, 1, 0, 1, 1, 0],
  [0, 1, 1, 0, 1, 0]
]

-- ─── Code 128 ───────────────────────────────────────────────────────────────

def START_B : Nat := 104
def START_C : Nat := 105
def CODE_B : Nat := 100
def CODE_C : Nat := 99
def STOP : Nat := 106

/-- `code128_value_b`: subset-B symbol value of an ASCII character 32–126. -/
def code128_value_b (c : Char) : Option Nat :=
  if 32 ≤ c.toNat && c.toNat ≤ 126 then some (c.toNat - 32) else none

/-- `pattern_to_modules`: expand a width list into modules, even index = dark bar. -/
def pattern_to_modules (pattern : List Nat) : List Bool :=
  pattern.enum.flatMap fun p => List.replicate p.2 (p.1 % 2 == 0)

/-- Numeric value of an ASCII digit character (`c as u8 - b'0'` in the source). -/
def digitVal (c : Char) : Nat := c.toNat - 48

/-- Count of leading ASCII-digit characters (`take_while(is_ascii_digit).count()`). -/
def leadingDigits (cs : List Char) : Nat := (cs.takeWhile isAsciiDigit).length

/-- The scanning loop of `encode_code128`, producing the emitted symbol values
after the start code.  The Boolean state is `true` for subset C, `false` for
subset B, mirroring `current_set`.  The source's two switch steps set the
state without consuming a character; here each switch step is fused with the
forced next step so the recursion is structural:
after "switch to C" (guarded by 4 or more upcoming digits) subset C
necessarily consumes the digit pair, and after "switch to B" (taken when the
next two characters are not both digits, so fewer than 4 digits are upcoming)
subset B necessarily encodes the single next character. -/
def code128_scan : List Char → Bool → Option (List Nat)
  | [], _ => some []
  | [c1], true =>
    -- no pair available: switch to B, which encodes the lone character
    match code128_value_b c1 with
    | some v => some [CODE_B, v]
    | none => none
  | c1 :: c2 :: rs, true =>
    if isAsciiDigit c1 && isAsciiDigit c2 then
      (code128_scan rs true).map fun vs => (digitVal c1 * 10 + digitVal c2) :: vs
    else
      -- switch to B; c1, c2 are not both digits so B encodes c1 next
      match code128_value_b c1 with
      | some v => (code128_scan (c2 :: rs) false).map fun vs => CODE_B :: v :: vs
      | none => none
  | [c1], false =>
    -- at most 1 upcoming digit, so never switch to C here
    match code128_value_b c1 with
    | some v => some [v]
    | none => none
  | c1 :: c2 :: rs, false =>
    if 4 ≤ leadingDigits (c1 :: c2 :: rs) then
      -- switch to C; the guard makes c1, c2 digits, consumed as the first pair
      (code128_scan rs true).map fun vs =>
        CODE_C :: (digitVal c1 * 10 + digitVal c2) :: vs
    else
      match code128_value_b c1 with
      | some v => (code128_scan (c2 :: rs) false).map fun vs => v :: vs
      | none => none

/-- The Code 128 checksum: start value plus each later value times its 1-based
position, reduced mod 103. -/
def code128_checksum (start : Nat) (rest : List Nat) : Nat :=
  (rest.enum.foldl (fun acc p => acc + p.2 * (p.1 + 1)) start) % 103

/-- The full emitted value sequence of `encode_code128`: start code, scanned
body, checksum, stop. -/
def code128_values (cs : List Char) : Option (List Nat) :=
  let setC := 4 ≤ leadingDigits cs
  let start := if setC then START_C else START_B
  match code128_scan cs (decide setC) with
  | none => none
  | some body => some ((start :: body) ++ [code128_checksum start body, STOP])

/-- The 13-module stop pattern special-cased in the module loop. -/
def code128_stop_modules : List Bool :=
  [true, true, false, false, false, true, true, true, false, true, true, false, true]

/-- Modules of one emitted symbol value: the stop value uses the fixed stop
pattern, values below 107 use the width table, anything else adds nothing
(mirroring the guarded `else if val < 107`). -/
def code128_symbol_modules (val : Nat) : List Bool :=
  if val = STOP then code128_stop_modules
  else if val < 107 then pattern_to_modules (CODE128_PATTERNS.getD val (List.replicate 6 0))
  else []

/-- `encode_code128` from the source. -/
def encode_code128 (cs : List Char) : Option Barcode :=
  if ¬ (cs.all fun c => 32 ≤ c.toNat && c.toNat ≤ 126) then none
  else
    match code128_values cs with
    | none => none
    | some vals =>
      some ⟨List.replicate 10 false
              ++ vals.flatMap code128_symbol_modules
              ++ List.replicate 10 false,
            cs, .Code128⟩

-- ─── Code 39 ────────────────────────────────────────────────────────────────

/-- The Code 39 byte alphabet `b"0123456789ABCDEFGHIJKLMNOPQRSTUVWXYZ-. $/+%*"`. -/
def CODE39_CHARS : List Nat :=
  "0123456789ABCDEFGHIJKLMNOPQRSTUVWXYZ-. $/+%*".toList.map Char.toNat

/-- `code39_index`: position of `c as u8` (truncating cast) in the byte alphabet. -/
def code39_index (c : Char) : Option Nat :=
  CODE39_CHARS.findIdx? (fun b => b == c.toNat % 256)

/-- `encode_code39_char`: expand a 9-element narrow/wide pattern into modules,
even index = dark bar; nonzero entries are wide. -/
def encode_code39_char (pattern : List Nat) (narrow wide : Nat) : List Bool :=
  pattern.enum.flatMap fun p =>
    List.replicate (if p.2 ≠ 0 then wide else narrow) (p.1 % 2 == 0)

/-- `encode_code39` from the source. -/
def encode_code39 (cs : List Char) : Option Barcode :=
  let upper := cs.map toAsciiUpper
  if ¬ (upper.all fun c => (code39_index c).isSome) then none
  else
    let star := CODE39_PATTERNS.getD 43 []
    let modules :=
      List.replicate 10 false
        ++ encode_code39_char star 1 3
        ++ [false]
        ++ (upper.flatMap fun c =>
              match code39_index c with
              | some idx => encode_code39_char (CODE39_PATTERNS.getD idx []) 1 3 ++ [false]
              | none => [])
        ++ encode_code39_char star 1 3
        ++ List.replicate 10 false
    some ⟨modules, upper, .Code39⟩

-- ─── EAN-13 ─────────────────────────────────────────────────────────────────

/-- `ean13_check_digit`: weight 1 at even 0-indexed positions, 3 at odd ones. -/
def ean13_check_digit (digits : List Nat) : Nat :=
  let sum := digits.enum.foldl
    (fun acc p => if p.1 % 2 = 0 then acc + p.2 else acc + p.2 * 3) 0
  (10 - sum % 10) % 10

/-- Character of a digit value (`(d + b'0') as char`). -/
def digitChar (d : Nat) : Char := Char.ofNat (d + 48)

/-- Left block of the layout: digits at positions 1–6, each through the L or G
table as selected by the parity row of digit 0. -/
def ean13_left_block (digits : List Nat) : List Bool :=
  let parity := EAN_PARITY.getD (digits.getD 0 0) (List.replicate 6 0)
  (List.range 6).flatMap fun i =>
    let digit := digits.getD (i + 1) 0
    if parity.getD i 0 = 0 then EAN_L_PATTERNS.getD digit (List.replicate 7 false)
    else EAN_G_PATTERNS.getD digit (List.replicate 7 false)

/-- Right block of the layout: digits at positions 7–12 through the R table. -/
def ean13_right_block (digits : List Nat) : List Bool :=
  (List.range 6).flatMap fun i =>
    EAN_R_PATTERNS.getD (digits.getD (i + 7) 0) (List.replicate 7 false)

/-- The fixed EAN-13 module layout of a 13-digit sequence: quiet zone, start
guard, six L/G left digits picked by the parity row of digit 0, center guard,
six R right digits, end guard, quiet zone. -/
def ean13_layout (digits : List Nat) : List Bool :=
  List.replicate 9 false
    ++ [true, false, true]
    ++ ean13_left_block digits
    ++ [false, true, false, true, false]
    ++ ean13_right_block digits
    ++ [true, false, true]
    ++ List.replicate 9 false

/-- `encode_ean13` from the source. -/
def encode_ean13 (cs : List Char) : Option Barcode :=
  if ¬ (cs.all isAsciiDigit) then none
  else
    let digits0 := cs.map digitVal
    if digits0.length < 12 then none
    else
      let digits1 :=
        if digits0.length = 12 then digits0 ++ [ean13_check_digit digits0] else digits0
      if digits1.length ≠ 13 then none
      else
        let expected := ean13_check_digit (digits1.take 12)
        let digits2 :=
          if digits1.getD 12 0 ≠ expected then digits1.set 12 expected else digits1
        some ⟨ean13_layout digits2, digits2.map digitChar, .Ean13⟩

-- ─── UPC-A ──────────────────────────────────────────────────────────────────

/-- `upc_check_digit`: weight 3 at even 0-indexed positions, 1 at odd ones. -/
def upc_check_digit (digits : List Nat) : Nat :=
  let sum := digits.enum.foldl
    (fun acc p => if p.1 % 2 = 0 then acc + p.2 * 3 else acc + p.2) 0
  (10 - sum % 10) % 10

/-- `encode_upc_a` from the source: prepend 0, reuse the EAN-13 path, then
overwrite display text and format. -/
def encode_upc_a (cs : List Char) : Option Barcode :=
  if ¬ (cs.all isAsciiDigit) then none
  else
    let digits0 := cs.map digitVal
    if digits0.length < 11 then none
    else
      let digits1 :=
        if digits0.length = 11 then digits0 ++ [upc_check_digit digits0] else digits0
      if digits1.length ≠ 12 then none
      else
        let expected := upc_check_digit (digits1.take 11)
        let digits2 := digits1.set 11 expected
        let ean_digits := 0 :: digits2
        let display := digits2.map digitChar
        let ean_text := ean_digits.map digitChar
        match encode_ean13 ean_text with
        | some b => some ⟨b.modules, display, .UpcA⟩
        | none => none

-- ─── Dispatch ───────────────────────────────────────────────────────────────

/-- `encode` from the source: empty input fails, otherwise dispatch by format. -/
def encode (cs : List Char) (format : BarcodeFormat) : Option Barcode :=
  if cs.isEmpty then none
  else
    match format with
    | .Code128 => encode_code128 cs
    | .Code39 => encode_code39 cs
    | .Ean13 => encode_ean13 cs
    | .UpcA => encode_upc_a cs
-- ─── Derived definitions used by the specification statements ───────────────

/-- The normalised 13-digit sequence that `encode_ean13` lays out and displays
on a valid 12- or 13-digit input: the first 12 digits with the recomputed
check digit appended. -/
def ean13_norm (ds : List Nat) : List Nat :=
  ds.take 12 ++ [ean13_check_digit (ds.take 12)]

/-- The normalised 12-digit sequence of `encode_upc_a`: the first 11 digits
with the recomputed UPC check digit appended. -/
def upc_norm (ds : List Nat) : List Nat :=
  ds.take 11 ++ [upc_check_digit (ds.take 11)]

/-- Quiet-zone width per format: 10 modules for Code128/Code39, 9 for
EAN-13/UPC-A. -/
def quiet_zone (format : BarcodeFormat) : Nat :=
  match format with
  | .Code128 => 10
  | .Code39 => 10
  | .Ean13 => 9
  | .UpcA => 9

/-- The check-digit weighting exactly as the specification words it: the sum
of the digits with weight 1 at even 0-indexed positions and weight 3 at odd
positions. -/
def eanWeightedSum (ds : List Nat) : Nat :=
  (ds.enum.map fun p => (if p.1 % 2 = 0 then 1 else 3) * p.2).sum

-- ─── Helper lemmas: characters ──────────────────────────────────────────────

lemma toNat_ofNat_valid (n : Nat) (h : n < 55296) : (Char.ofNat n).toNat = n := by
  rw [Char.ofNat, dif_pos (Or.inl h)]
  rfl

lemma digitChar_digitVal {c : Char} (h : isAsciiDigit c = true) :
    digitChar (digitVal c) = c := by
  simp only [isAsciiDigit, Bool.and_eq_true, decide_eq_true_eq] at h
  simp only [digitChar, digitVal, Nat.sub_add_cancel h.1, Char.ofNat_toNat]

lemma toNat_digitChar {d : Nat} (h : d ≤ 9) : (digitChar d).toNat = d + 48 := by
  exact toNat_ofNat_valid _ (by omega)

lemma isAsciiDigit_digitChar {d : Nat} (h : d ≤ 9) : isAsciiDigit (digitChar d) = true := by
  simp only [isAsciiDigit, toNat_digitChar h, Bool.and_eq_true, decide_eq_true_eq]
  omega

lemma digitVal_digitChar {d : Nat} (h : d ≤ 9) : digitVal (digitChar d) = d := by
  simp only [digitVal, toNat_digitChar h]
  omega

lemma map_digitChar_map_digitVal {cs : List Char} (h : cs.all isAsciiDigit = true) :
    (cs.map digitVal).map digitChar = cs := by
  induction cs with
  | nil => rfl
  | cons c cs ih =>
    simp only [List.all_cons, Bool.and_eq_true] at h
    simp only [List.map_cons, digitChar_digitVal h.1, ih h.2]

lemma toAsciiUpper_idem (c : Char) : toAsciiUpper (toAsciiUpper c) = toAsciiUpper c := by
  unfold toAsciiUpper
  by_cases h : isAsciiLower c = true
  · rw [if_pos h]
    have hc : 97 ≤ c.toNat ∧ c.toNat ≤ 122 := by
      simpa [isAsciiLower, Bool.and_eq_true, decide_eq_true_eq] using h
    have ht : (Char.ofNat (c.toNat - 32)).toNat = c.toNat - 32 :=
      toNat_ofNat_valid _ (by omega)
    have : isAsciiLower (Char.ofNat (c.toNat - 32)) = false := by
      simp only [isAsciiLower, ht, Bool.and_eq_false_iff, decide_eq_false_iff_not]
      omega
    rw [if_neg (by simp [this])]
  · rw [if_neg h, if_neg h]

lemma map_toAsciiUpper_idem (cs : List Char) :
    (cs.map toAsciiUpper).map toAsciiUpper = cs.map toAsciiUpper := by
  simp only [List.map_map]
  exact List.map_congr_left fun c _ => toAsciiUpper_idem c

-- ─── Helper lemmas: quiet zones ─────────────────────────────────────────────

/-- A module list of the form `replicate q false ++ (true :: rest)` starts with
exactly `q` light modules: the first `q` are light and module `q` is dark. -/
lemma quiet_front_take {q : Nat} (rest : List Bool) :
    (List.replicate q false ++ (true :: rest)).take q = List.replicate q false := by
  have h := List.take_left (List.replicate q false) (true :: rest)
  rwa [List.length_replicate] at h

lemma quiet_front_getD {q : Nat} (rest : List Bool) :
    (List.replicate q false ++ (true :: rest)).getD q false = true := by
  rw [List.getD_append_right _ _ _ _ (by simp)]
  simp

-- ─── Helper lemmas: EAN-13 ──────────────────────────────────────────────────

lemma eanL_getD_length (d : Nat) :
    (EAN_L_PATTERNS.getD d (List.replicate 7 false)).length = 7 := by
  rcases d with _|_|_|_|_|_|_|_|_|_|d <;> rfl

lemma eanG_getD_length (d : Nat) :
    (EAN_G_PATTERNS.getD d (List.replicate 7 false)).length = 7 := by
  rcases d with _|_|_|_|_|_|_|_|_|_|d <;> rfl

lemma eanR_getD_length (d : Nat) :
    (EAN_R_PATTERNS.getD d (List.replicate 7 false)).length = 7 := by
  rcases d with _|_|_|_|_|_|_|_|_|_|d <;> rfl

lemma ean13_left_block_length (digits : List Nat) :
    (ean13_left_block digits).length = 42 := by
  have hrange : List.range 6 = [0, 1, 2, 3, 4, 5] := rfl
  unfold ean13_left_block
  simp only [hrange, List.flatMap_cons, List.flatMap_nil, List.append_nil, List.length_append]
  have hLG : ∀ i d, (if (EAN_PARITY.getD (digits.getD 0 0) (List.replicate 6 0)).getD i 0 = 0
      then EAN_L_PATTERNS.getD d (List.replicate 7 false)
      else EAN_G_PATTERNS.getD d (List.replicate 7 false)).length = 7 := by
    intro i d
    split
    · exact eanL_getD_length d
    · exact eanG_getD_length d
  rw [hLG, hLG, hLG, hLG, hLG, hLG]

lemma ean13_right_block_length (digits : List Nat) :
    (ean13_right_block digits).length = 42 := by
  have hrange : List.range 6 = [0, 1, 2, 3, 4, 5] := rfl
  unfold ean13_right_block
  simp only [hrange, List.flatMap_cons, List.flatMap_nil, List.append_nil, List.length_append]
  rw [eanR_getD_length, eanR_getD_length, eanR_getD_length,
    eanR_getD_length, eanR_getD_length, eanR_getD_length]

/-- The whole layout is always 9+3+42+5+42+3+9 = 113 modules, whatever the
digit list. -/
lemma ean13_layout_length (digits : List Nat) : (ean13_layout digits).length = 113 := by
  unfold ean13_layout
  simp [ean13_left_block_length, ean13_right_block_length]

/-- The layout begins with 9 light modules followed by a dark one. -/
lemma ean13_layout_shape (digits : List Nat) :
    ∃ rest, ean13_layout digits = List.replicate 9 false ++ (true :: rest) := by
  refine ⟨false :: true :: (ean13_left_block digits
      ++ ([false, true, false, true, false]
        ++ (ean13_right_block digits
          ++ (true :: false :: true :: List.replicate 9 false)))), ?_⟩
  simp [ean13_layout, List.append_assoc]

/-- Reversed, the layout again begins with 9 light modules then a dark one. -/
lemma ean13_layout_reverse_shape (digits : List Nat) :
    ∃ rest, (ean13_layout digits).reverse = List.replicate 9 false ++ (true :: rest) := by
  refine ⟨false :: true :: ((ean13_right_block digits).reverse
      ++ ([false, true, false, true, false]
        ++ ((ean13_left_block digits).reverse
          ++ (true :: false :: true :: List.replicate 9 false)))), ?_⟩
  simp [ean13_layout, List.reverse_append, List.append_assoc]

lemma ean13_check_digit_le (digits : List Nat) : ean13_check_digit digits ≤ 9 :=
  Nat.le_of_lt_succ (Nat.mod_lt _ (by norm_num))

lemma upc_check_digit_le (digits : List Nat) : upc_check_digit digits ≤ 9 :=
  Nat.le_of_lt_succ (Nat.mod_lt _ (by norm_num))

-- ─── Helper lemmas: list surgery ────────────────────────────────────────────

lemma set_last_eq_take_append {α : Type} {l : List α} {n : Nat} {a : α}
    (h : l.length = n + 1) : l.set n a = l.take n ++ [a] := by
  induction l generalizing n with
  | nil => simp at h
  | cons x t ih =>
    cases n with
    | zero =>
      have : t = [] := by
        cases t with
        | nil => rfl
        | cons y u => simp at h
      simp [this]
    | succ m =>
      have : t.length = m + 1 := by simpa using h
      simp [List.set_cons_succ, List.take_succ_cons, ih this]

lemma eq_take_append_getD {α : Type} {l : List α} {n : Nat} (d : α)
    (h : l.length = n + 1) : l = l.take n ++ [l.getD n d] := by
  conv_lhs => rw [← List.take_append_drop n l]
  congr 1
  rw [List.drop_eq_getElem_cons (by omega), List.drop_eq_nil_of_le (by omega),
    List.getD_eq_getElem _ _ (by omega)]

-- ─── Helper lemmas: EAN-13 success and failure characterisation ─────────────

/-- On an all-digit input of length 12 or 13, `encode_ean13` succeeds and
produces the layout and display of the normalised digit sequence. -/
lemma encode_ean13_eq {cs : List Char} (hall : cs.all isAsciiDigit = true)
    (hlen : cs.length = 12 ∨ cs.length = 13) :
    encode_ean13 cs =
      some ⟨ean13_layout (ean13_norm (cs.map digitVal)),
            (ean13_norm (cs.map digitVal)).map digitChar, .Ean13⟩ := by
  have h0 : (cs.map digitVal).length = cs.length := List.length_map _ _
  unfold encode_ean13 ean13_norm
  rw [if_neg (by simp [hall])]
  dsimp only
  rcases hlen with h12 | h13
  · rw [if_neg (show ¬ (cs.map digitVal).length < 12 by omega),
      if_pos (show (cs.map digitVal).length = 12 by omega)]
    have htake : (cs.map digitVal ++ [ean13_check_digit (cs.map digitVal)]).take 12
        = cs.map digitVal := List.take_left' (by omega)
    have hgetD : (cs.map digitVal ++ [ean13_check_digit (cs.map digitVal)]).getD 12 0
        = ean13_check_digit (cs.map digitVal) := by
      rw [List.getD_append_right _ _ _ _ (by omega), h0, h12]
      simp
    rw [if_neg (show ¬ (cs.map digitVal ++ [ean13_check_digit (cs.map digitVal)]).length ≠ 13 by
      simp only [List.length_append, List.length_cons, List.length_nil]; omega)]
    rw [if_neg (not_not_intro (by rw [htake, hgetD]))]
    rw [List.take_of_length_le (show (cs.map digitVal).length ≤ 12 by omega)]
  · rw [if_neg (show ¬ (cs.map digitVal).length < 12 by omega),
      if_neg (show ¬ (cs.map digitVal).length = 12 by omega),
      if_neg (show ¬ (cs.map digitVal).length ≠ 13 by omega)]
    by_cases hmatch :
        (cs.map digitVal).getD 12 0 = ean13_check_digit ((cs.map digitVal).take 12)
    · rw [if_neg (not_not_intro hmatch)]
      have hd : cs.map digitVal
          = (cs.map digitVal).take 12 ++ [ean13_check_digit ((cs.map digitVal).take 12)] := by
        conv_lhs => rw [eq_take_append_getD (l := cs.map digitVal) (n := 12) 0 (by omega)]
        rw [hmatch]
      rw [← hd]
    · rw [if_pos hmatch]
      rw [set_last_eq_take_append (by omega)]

/-- `encode_ean13` fails exactly on a non-digit character or a length outside
12–13. -/
lemma encode_ean13_none_iff (cs : List Char) :
    encode_ean13 cs = none ↔
      (cs.all isAsciiDigit = false ∨ cs.length < 12 ∨ 13 < cs.length) := by
  constructor
  · intro hnone
    by_contra hcon
    push_neg at hcon
    obtain ⟨h1, h2, h3⟩ := hcon
    have hall : cs.all isAsciiDigit = true := by
      cases h : cs.all isAsciiDigit
      · exact absurd h h1
      · rfl
    have hlen : cs.length = 12 ∨ cs.length = 13 := by omega
    rw [encode_ean13_eq hall hlen] at hnone
    exact Option.noConfusion hnone
  · intro h
    unfold encode_ean13
    have h0 : (cs.map digitVal).length = cs.length := List.length_map _ _
    rcases h with h | h | h
    · rw [if_pos (by simp [h])]
    · by_cases hall : cs.all isAsciiDigit = true
      · rw [if_neg (by simp [hall])]
        dsimp only
        rw [if_pos (show (cs.map digitVal).length < 12 by omega)]
      · rw [if_pos (by simp_all)]
    · by_cases hall : cs.all isAsciiDigit = true
      · rw [if_neg (by simp [hall])]
        dsimp only
        rw [if_neg (show ¬ (cs.map digitVal).length < 12 by omega),
          if_neg (show ¬ (cs.map digitVal).length = 12 by omega),
          if_pos (show (cs.map digitVal).length ≠ 13 by omega)]
      · rw [if_pos (by simp_all)]

-- ─── Helper lemmas: Code 128 ────────────────────────────────────────────────

lemma digitVal_le_nine {c : Char} (h : isAsciiDigit c = true) : digitVal c ≤ 9 := by
  simp only [isAsciiDigit, Bool.and_eq_true, decide_eq_true_eq] at h
  simp only [digitVal]
  omega

lemma code128_value_b_le {c : Char} {v : Nat} (h : code128_value_b c = some v) :
    v ≤ 94 := by
  unfold code128_value_b at h
  split at h
  · next hg =>
    simp only [Bool.and_eq_true, decide_eq_true_eq] at hg
    cases h
    omega
  · exact Option.noConfusion h

lemma leadingDigits_two {c1 c2 : Char} {rs : List Char}
    (h : 4 ≤ leadingDigits (c1 :: c2 :: rs)) :
    isAsciiDigit c1 = true ∧ isAsciiDigit c2 = true := by
  unfold leadingDigits at h
  cases h1 : isAsciiDigit c1 <;> cases h2 : isAsciiDigit c2 <;>
    simp [List.takeWhile_cons, h1, h2] at h
  exact ⟨rfl, rfl⟩

/-- Every value emitted by the scanning loop is below 103: subset-C pairs are
at most 99, the switch codes are 99 and 100, subset-B values are at most 94. -/
lemma code128_scan_lt {cs : List Char} {setC : Bool} {vs : List Nat}
    (h : code128_scan cs setC = some vs) : ∀ v ∈ vs, v < 103 := by
  induction cs, setC using code128_scan.induct generalizing vs with
  | case1 =>
    rw [code128_scan] at h
    cases h
    simp
  | case2 c1 v hvb =>
    rw [code128_scan, hvb] at h
    cases h
    have := code128_value_b_le hvb
    intro w hw
    rcases List.mem_cons.1 hw with rfl | hw2
    · simp [CODE_B]
    · simp only [List.mem_singleton] at hw2
      omega
  | case3 c1 hvb =>
    rw [code128_scan, hvb] at h
    exact Option.noConfusion h
  | case4 c1 c2 rs hdig ih =>
    rw [code128_scan, if_pos hdig] at h
    cases hs : code128_scan rs true with
    | none => rw [hs] at h; exact Option.noConfusion h
    | some vs0 =>
      rw [hs] at h
      cases h
      intro v hv
      rcases List.mem_cons.1 hv with rfl | hmem
      · simp only [Bool.and_eq_true] at hdig
        have := digitVal_le_nine hdig.1
        have := digitVal_le_nine hdig.2
        omega
      · exact ih hs v hmem
  | case5 c1 c2 rs hndig v hvb ih =>
    rw [code128_scan, if_neg hndig, hvb] at h
    cases hs : code128_scan (c2 :: rs) false with
    | none => rw [hs] at h; exact Option.noConfusion h
    | some vs0 =>
      rw [hs] at h
      cases h
      intro w hw
      have hvb9 := code128_value_b_le hvb
      rcases List.mem_cons.1 hw with rfl | hw2
      · simp [CODE_B]
      · rcases List.mem_cons.1 hw2 with rfl | hw3
        · omega
        · exact ih hs w hw3
  | case6 c1 c2 rs hndig hvb =>
    rw [code128_scan, if_neg hndig, hvb] at h
    exact Option.noConfusion h
  | case7 c1 v hvb =>
    rw [code128_scan, hvb] at h
    cases h
    have := code128_value_b_le hvb
    intro w hw
    simp only [List.mem_singleton] at hw
    omega
  | case8 c1 hvb =>
    rw [code128_scan, hvb] at h
    exact Option.noConfusion h
  | case9 c1 c2 rs hlead ih =>
    rw [code128_scan, if_pos hlead] at h
    cases hs : code128_scan rs true with
    | none => rw [hs] at h; exact Option.noConfusion h
    | some vs0 =>
      rw [hs] at h
      cases h
      intro v hv
      obtain ⟨hd1, hd2⟩ := leadingDigits_two hlead
      rcases List.mem_cons.1 hv with rfl | hw2
      · simp [CODE_C]
      · rcases List.mem_cons.1 hw2 with rfl | hw3
        · have := digitVal_le_nine hd1
          have := digitVal_le_nine hd2
          omega
        · exact ih hs v hw3
  | case10 c1 c2 rs hnlead v hvb ih =>
    rw [code128_scan, if_neg hnlead, hvb] at h
    cases hs : code128_scan (c2 :: rs) false with
    | none => rw [hs] at h; exact Option.noConfusion h
    | some vs0 =>
      rw [hs] at h
      cases h
      intro w hw
      rcases List.mem_cons.1 hw with rfl | hw2
      · have := code128_value_b_le hvb
        omega
      · exact ih hs w hw2
  | case11 c1 c2 rs hnlead hvb =>
    rw [code128_scan, if_neg hnlead, hvb] at h
    exact Option.noConfusion h

lemma code128_checksum_lt (start : Nat) (rest : List Nat) :
    code128_checksum start rest < 103 :=
  Nat.mod_lt _ (by norm_num)

/-- Structure of a successful `code128_values`. -/
lemma code128_values_some {cs : List Char} {vals : List Nat}
    (h : code128_values cs = some vals) :
    ∃ start body, (start = START_B ∨ start = START_C) ∧
      code128_scan cs (decide (4 ≤ leadingDigits cs)) = some body ∧
      vals = (start :: body) ++ [code128_checksum start body, STOP] := by
  unfold code128_values at h
  dsimp only at h
  cases hs : code128_scan cs (decide (4 ≤ leadingDigits cs)) with
  | none => rw [hs] at h; exact Option.noConfusion h
  | some body =>
    rw [hs] at h
    cases h
    by_cases hC : 4 ≤ leadingDigits cs
    · exact ⟨START_C, body, Or.inr rfl, rfl, by rw [if_pos hC]⟩
    · exact ⟨START_B, body, Or.inl rfl, rfl, by rw [if_neg hC]⟩

/-- Every value in a successful emitted sequence is below 107. -/
lemma code128_values_lt {cs : List Char} {vals : List Nat}
    (h : code128_values cs = some vals) : ∀ v ∈ vals, v < 107 := by
  obtain ⟨start, body, hstart, hscan, rfl⟩ := code128_values_some h
  intro v hv
  simp only [List.cons_append, List.mem_cons, List.mem_append] at hv
  rcases hv with rfl | hv | hv
  · rcases hstart with rfl | rfl <;> simp [START_B, START_C]
  · have := code128_scan_lt hscan v hv
    omega
  · simp only [List.mem_cons, List.not_mem_nil, or_false] at hv
    rcases hv with rfl | rfl
    · have := code128_checksum_lt start body
      omega
    · simp [STOP]

/-- Structure of a successful `encode_code128`. -/
lemma encode_code128_some {cs : List Char} {b : Barcode}
    (h : encode_code128 cs = some b) :
    ∃ vals, code128_values cs = some vals ∧
      b.modules = List.replicate 10 false
        ++ (vals.flatMap code128_symbol_modules ++ List.replicate 10 false) ∧
      b.text = cs ∧ b.format = .Code128 := by
  unfold encode_code128 at h
  split at h
  · exact Option.noConfusion h
  · cases hv : code128_values cs with
    | none => rw [hv] at h; exact Option.noConfusion h
    | some vals =>
      rw [hv] at h
      cases h
      exact ⟨vals, rfl, by simp [List.append_assoc], rfl, rfl⟩

-- ─── Helper lemmas: Code 39 ─────────────────────────────────────────────────

lemma code39_index_lt {c : Char} {i : Nat} (h : code39_index c = some i) : i < 44 := by
  unfold code39_index at h
  have h44 : CODE39_CHARS.length = 44 := by decide
  have := (List.findIdx?_eq_some_iff_findIdx_eq.mp h).1
  omega

/-- Structure of a successful `encode_code39`. -/
lemma encode_code39_some {cs : List Char} {b : Barcode}
    (h : encode_code39 cs = some b) :
    b.text = cs.map toAsciiUpper ∧ b.format = .Code39 ∧
    b.modules = List.replicate 10 false
      ++ (encode_code39_char (CODE39_PATTERNS.getD 43 []) 1 3
        ++ ([false]
          ++ (((cs.map toAsciiUpper).flatMap fun c =>
                match code39_index c with
                | some idx => encode_code39_char (CODE39_PATTERNS.getD idx []) 1 3 ++ [false]
                | none => [])
            ++ (encode_code39_char (CODE39_PATTERNS.getD 43 []) 1 3
              ++ List.replicate 10 false)))) := by
  unfold encode_code39 at h
  dsimp only at h
  split at h
  · exact Option.noConfusion h
  · cases h
    exact ⟨rfl, rfl, by simp [List.append_assoc]⟩

/-- `encode_code39` fails exactly when some uppercased character is missing
from the byte alphabet. -/
lemma encode_code39_none_iff (cs : List Char) :
    encode_code39 cs = none ↔
      ∃ c ∈ cs.map toAsciiUpper, code39_index c = none := by
  unfold encode_code39
  dsimp only
  constructor
  · intro h
    split at h
    · next hcond =>
      rw [List.all_eq_true] at hcond
      push_neg at hcond
      obtain ⟨c, hc, hnot⟩ := hcond
      exact ⟨c, hc, by cases hidx : code39_index c <;> simp [hidx] at hnot ⊢⟩
    · exact Option.noConfusion h
  · intro ⟨c, hc, hidx⟩
    rw [if_pos]
    intro hall
    rw [List.all_eq_true] at hall
    have := hall c hc
    rw [hidx] at this
    exact Bool.noConfusion this

-- ─── Helper lemmas: UPC-A ───────────────────────────────────────────────────

lemma digitVals_le {cs : List Char} (hall : cs.all isAsciiDigit = true) :
    ∀ d ∈ cs.map digitVal, d ≤ 9 := by
  intro d hd
  obtain ⟨c, hc, rfl⟩ := List.mem_map.1 hd
  exact digitVal_le_nine (List.all_eq_true.1 hall c hc)

lemma upc_norm_le {ds : List Nat} (h : ∀ d ∈ ds, d ≤ 9) :
    ∀ d ∈ upc_norm ds, d ≤ 9 := by
  intro d hd
  unfold upc_norm at hd
  rcases List.mem_append.1 hd with h1 | h2
  · exact h d (List.mem_of_mem_take h1)
  · simp only [List.mem_singleton] at h2
    subst h2
    exact upc_check_digit_le _

lemma map_digitVal_map_digitChar {ds : List Nat} (h : ∀ d ∈ ds, d ≤ 9) :
    (ds.map digitChar).map digitVal = ds := by
  induction ds with
  | nil => rfl
  | cons d t ih =>
    simp only [List.map_cons, List.cons.injEq]
    exact ⟨digitVal_digitChar (h d (by simp)), ih fun x hx => h x (by simp [hx])⟩

lemma upc_norm_length {ds : List Nat} (h : 11 ≤ ds.length) :
    (upc_norm ds).length = 12 := by
  unfold upc_norm
  simp only [List.length_append, List.length_take, List.length_cons, List.length_nil]
  omega

/-- On an all-digit input of length 11 or 12, `encode_upc_a` succeeds, runs the
EAN-13 layout on the zero-prefixed normalised digits, and displays the 12
normalised UPC digits. -/
lemma encode_upc_a_eq {cs : List Char} (hall : cs.all isAsciiDigit = true)
    (hlen : cs.length = 11 ∨ cs.length = 12) :
    encode_upc_a cs =
      some ⟨ean13_layout (ean13_norm (0 :: upc_norm (cs.map digitVal))),
            (upc_norm (cs.map digitVal)).map digitChar, .UpcA⟩ := by
  have h0 : (cs.map digitVal).length = cs.length := List.length_map _ _
  have hle : ∀ d ∈ upc_norm (cs.map digitVal), d ≤ 9 := upc_norm_le (digitVals_le hall)
  have hle0 : ∀ d ∈ (0 :: upc_norm (cs.map digitVal)), d ≤ 9 := by
    intro d hd
    rcases List.mem_cons.1 hd with rfl | hd2
    · omega
    · exact hle d hd2
  have hall2 : (((0 :: upc_norm (cs.map digitVal)).map digitChar).all isAsciiDigit) = true := by
    rw [List.all_eq_true]
    intro c hc
    obtain ⟨d, hd, rfl⟩ := List.mem_map.1 hc
    exact isAsciiDigit_digitChar (hle0 d hd)
  have hlen2 : ((0 :: upc_norm (cs.map digitVal)).map digitChar).length = 13 := by
    rw [List.length_map, List.length_cons, upc_norm_length (by omega)]
  have hroundtrip : (((0 :: upc_norm (cs.map digitVal)).map digitChar).map digitVal)
      = 0 :: upc_norm (cs.map digitVal) := map_digitVal_map_digitChar hle0
  have hean := encode_ean13_eq hall2 (Or.inr hlen2)
  rw [hroundtrip] at hean
  unfold encode_upc_a
  rw [if_neg (by simp [hall])]
  dsimp only
  rcases hlen with h11 | h12
  · rw [if_neg (show ¬ (cs.map digitVal).length < 11 by omega),
      if_pos (show (cs.map digitVal).length = 11 by omega)]
    rw [if_neg (show ¬ (cs.map digitVal ++ [upc_check_digit (cs.map digitVal)]).length ≠ 12
      from by simp [h0, h11])]
    have htake : (cs.map digitVal ++ [upc_check_digit (cs.map digitVal)]).take 11
        = cs.map digitVal := List.take_left' (by omega)
    have hset : (cs.map digitVal ++ [upc_check_digit (cs.map digitVal)]).set 11
          (upc_check_digit ((cs.map digitVal ++ [upc_check_digit (cs.map digitVal)]).take 11))
        = upc_norm (cs.map digitVal) := by
      rw [set_last_eq_take_append (n := 11) (by simp [h0, h11])]
      rw [htake]
      unfold upc_norm
      rw [List.take_of_length_le (by omega)]
    rw [hset, hean]
  · rw [if_neg (show ¬ (cs.map digitVal).length < 11 by omega),
      if_neg (show ¬ (cs.map digitVal).length = 11 by omega),
      if_neg (show ¬ (cs.map digitVal).length ≠ 12 by omega)]
    have hset : (cs.map digitVal).set 11
          (upc_check_digit ((cs.map digitVal).take 11))
        = upc_norm (cs.map digitVal) := by
      rw [set_last_eq_take_append (by omega)]
      rfl
    rw [hset, hean]

/-- `encode_upc_a` fails exactly on a non-digit character or a length outside
11–12. -/
lemma encode_upc_a_none_iff (cs : List Char) :
    encode_upc_a cs = none ↔
      (cs.all isAsciiDigit = false ∨ cs.length < 11 ∨ 12 < cs.length) := by
  constructor
  · intro hnone
    by_contra hcon
    push_neg at hcon
    obtain ⟨h1, h2, h3⟩ := hcon
    have hall : cs.all isAsciiDigit = true := by
      cases h : cs.all isAsciiDigit
      · exact absurd h h1
      · rfl
    rw [encode_upc_a_eq hall (by omega)] at hnone
    exact Option.noConfusion hnone
  · intro h
    unfold encode_upc_a
    have h0 : (cs.map digitVal).length = cs.length := List.length_map _ _
    rcases h with h | h | h
    · rw [if_pos (by simp [h])]
    · by_cases hall : cs.all isAsciiDigit = true
      · rw [if_neg (by simp [hall])]
        dsimp only
        rw [if_pos (show (cs.map digitVal).length < 11 by omega)]
      · rw [if_pos (by simp_all)]
    · by_cases hall : cs.all isAsciiDigit = true
      · rw [if_neg (by simp [hall])]
        dsimp only
        rw [if_neg (show ¬ (cs.map digitVal).length < 11 by omega),
          if_neg (show ¬ (cs.map digitVal).length = 11 by omega),
          if_pos (show (cs.map digitVal).length ≠ 12 by omega)]
      · rw [if_pos (by simp_all)]

-- ─── Helper lemmas: quiet-zone shapes per encoder ───────────────────────────

lemma exists_rest_of_shape {q : Nat} {m : List Bool} (mid : List Bool)
    (hm : m = List.replicate q false ++ mid) (hh : mid.head? = some true) :
    ∃ rest, m = List.replicate q false ++ (true :: rest) := by
  cases mid with
  | nil => exact Option.noConfusion hh
  | cons x t =>
    have hx : x = true := by simpa using hh
    exact ⟨t, by rw [hm, hx]⟩

lemma reverse_shape {q : Nat} {m A : List Bool}
    (hm : m = List.replicate q false ++ (A ++ List.replicate q false))
    (hA : A.getLast? = some true) :
    ∃ rest, m.reverse = List.replicate q false ++ (true :: rest) := by
  have hh : A.reverse.head? = some true := by rw [List.head?_reverse]; exact hA
  apply exists_rest_of_shape (A.reverse ++ List.replicate q false)
  · rw [hm]
    simp [List.reverse_append, List.append_assoc]
  · rw [List.head?_append, hh]
    rfl

/-- A successful EAN-13 eencode's module list is an `ean13_layout`. -/
lemma encode_ean13_modules {cs : List Char} {b : Barcode}
    (h : encode_ean13 cs = some b) : ∃ ds, b.modules = ean13_layout ds := by
  have hnn : ¬ encode_ean13 cs = none := by rw [h]; simp
  rw [encode_ean13_none_iff] at hnn
  push_neg at hnn
  obtain ⟨h1, h2, h3⟩ := hnn
  have hall : cs.all isAsciiDigit = true := by
    cases hx : cs.all isAsciiDigit
    · exact absurd hx h1
    · rfl
  rw [encode_ean13_eq hall (by omega)] at h
  cases h
  exact ⟨_, rfl⟩

lemma encode_upc_a_modules {cs : List Char} {b : Barcode}
    (h : encode_upc_a cs = some b) : ∃ ds, b.modules = ean13_layout ds := by
  have hnn : ¬ encode_upc_a cs = none := by rw [h]; simp
  rw [encode_upc_a_none_iff] at hnn
  push_neg at hnn
  obtain ⟨h1, h2, h3⟩ := hnn
  have hall : cs.all isAsciiDigit = true := by
    cases hx : cs.all isAsciiDigit
    · exact absurd hx h1
    · rfl
  rw [encode_upc_a_eq hall (by omega)] at h
  cases h
  exact ⟨_, rfl⟩

lemma ean13_layout_shapes (ds : List Nat) :
    (∃ r, ean13_layout ds = List.replicate 9 false ++ (true :: r)) ∧
    (∃ r, (ean13_layout ds).reverse = List.replicate 9 false ++ (true :: r)) :=
  ⟨ean13_layout_shape ds, ean13_layout_reverse_shape ds⟩

/-- Shapes of a successful Code 128 encode: 10 light modules, a dark module,
and symmetrically at the end. -/
lemma code128_modules_shapes {cs : List Char} {b : Barcode}
    (h : encode_code128 cs = some b) :
    (∃ r, b.modules = List.replicate 10 false ++ (true :: r)) ∧
    (∃ r, b.modules.reverse = List.replicate 10 false ++ (true :: r)) := by
  obtain ⟨vals, hvals, hmod, _, _⟩ := encode_code128_some h
  obtain ⟨start, body, hstart, hscan, rfl⟩ := code128_values_some hvals
  have hflat : ((start :: body) ++ [code128_checksum start body, STOP]).flatMap
        code128_symbol_modules
      = code128_symbol_modules start
        ++ (body.flatMap code128_symbol_modules
          ++ (code128_symbol_modules (code128_checksum start body)
            ++ code128_symbol_modules STOP)) := by
    simp [List.flatMap_append, List.flatMap_cons, List.append_assoc]
  have hhead : (code128_symbol_modules start).head? = some true := by
    rcases hstart with rfl | rfl <;> decide
  have hlast : (code128_symbol_modules STOP).getLast? = some true := by decide
  constructor
  · apply exists_rest_of_shape (((start :: body)
      ++ [code128_checksum start body, STOP]).flatMap code128_symbol_modules
      ++ List.replicate 10 false)
    · rw [hmod]
    · rw [List.head?_append, hflat, List.head?_append, hhead]
      rfl
  · apply reverse_shape (A := ((start :: body)
      ++ [code128_checksum start body, STOP]).flatMap code128_symbol_modules)
    · rw [hmod]
    · rw [hflat]
      rw [List.getLast?_append, List.getLast?_append, List.getLast?_append, hlast]
      rfl

/-- Shapes of a successful Code 39 encode. -/
lemma code39_modules_shapes {cs : List Char} {b : Barcode}
    (h : encode_code39 cs = some b) :
    (∃ r, b.modules = List.replicate 10 false ++ (true :: r)) ∧
    (∃ r, b.modules.reverse = List.replicate 10 false ++ (true :: r)) := by
  obtain ⟨_, _, hmod⟩ := encode_code39_some h
  have hstarhead : (encode_code39_char (CODE39_PATTERNS.getD 43 []) 1 3).head?
      = some true := by decide
  have hstarlast : (encode_code39_char (CODE39_PATTERNS.getD 43 []) 1 3).getLast?
      = some true := by decide
  constructor
  · apply exists_rest_of_shape _ hmod
    rw [List.head?_append, hstarhead]
    rfl
  · apply reverse_shape (A := encode_code39_char (CODE39_PATTERNS.getD 43 []) 1 3
      ++ ([false]
        ++ (((cs.map toAsciiUpper).flatMap fun c =>
              match code39_index c with
              | some idx => encode_code39_char (CODE39_PATTERNS.getD idx []) 1 3 ++ [false]
              | none => [])
          ++ encode_code39_char (CODE39_PATTERNS.getD 43 []) 1 3)))
    · rw [hmod]
      simp [List.append_assoc]
    · rw [List.getLast?_append, List.getLast?_append, List.getLast?_append, hstarlast]
      rfl

-- ─── Wrapper and assorted glue lemmas ───────────────────────────────────────

lemma encode_code128_wrapper {cs : List Char} (h : cs ≠ []) :
    encode cs .Code128 = encode_code128 cs := by
  cases cs with
  | nil => exact absurd rfl h
  | cons c t => rfl

lemma encode_code39_wrapper {cs : List Char} (h : cs ≠ []) :
    encode cs .Code39 = encode_code39 cs := by
  cases cs with
  | nil => exact absurd rfl h
  | cons c t => rfl

lemma encode_ean13_wrapper {cs : List Char} (h : cs ≠ []) :
    encode cs .Ean13 = encode_ean13 cs := by
  cases cs with
  | nil => exact absurd rfl h
  | cons c t => rfl

lemma encode_upc_a_wrapper {cs : List Char} (h : cs ≠ []) :
    encode cs .UpcA = encode_upc_a cs := by
  cases cs with
  | nil => exact absurd rfl h
  | cons c t => rfl

lemma encode_nil (fmt : BarcodeFormat) : encode [] fmt = none := rfl

lemma all_take {p : Char → Bool} {cs : List Char} (h : cs.all p = true) (n : Nat) :
    (cs.take n).all p = true := by
  rw [List.all_eq_true] at h ⊢
  exact fun a ha => h a (List.mem_of_mem_take ha)

lemma all_mono {p q : Char → Bool} {l : List Char} (h : l.all p = true)
    (himp : ∀ c, p c = true → q c = true) : l.all q = true := by
  rw [List.all_eq_true] at h ⊢
  exact fun c hc => himp c (h c hc)

lemma isAsciiDigit_valid39 (c : Char) (h : isAsciiDigit c = true) :
    code39ValidChar c = true := by
  simp [code39ValidChar, h]

lemma foldl_ean_weight (l : List (Nat × Nat)) (acc : Nat) :
    l.foldl (fun acc p => if p.1 % 2 = 0 then acc + p.2 else acc + p.2 * 3) acc
      = acc + (l.map fun p => (if p.1 % 2 = 0 then 1 else 3) * p.2).sum := by
  induction l generalizing acc with
  | nil => simp
  | cons x t ih =>
    rw [List.foldl_cons, ih, List.map_cons, List.sum_cons]
    split <;> omega

lemma ean13_check_digit_spec (ds : List Nat) :
    ean13_check_digit ds = (10 - eanWeightedSum ds % 10) % 10 := by
  unfold ean13_check_digit eanWeightedSum
  rw [foldl_ean_weight]
  simp

lemma quiet_spec {q : Nat} {m : List Bool}
    (h1 : ∃ r, m = List.replicate q false ++ (true :: r))
    (h2 : ∃ r, m.reverse = List.replicate q false ++ (true :: r)) :
    m ≠ [] ∧ m.take q = List.replicate q false ∧ m.getD q false = true ∧
      m.reverse.take q = List.replicate q false ∧ m.reverse.getD q false = true := by
  obtain ⟨r1, e1⟩ := h1
  obtain ⟨r2, e2⟩ := h2
  refine ⟨?_, ?_, ?_, ?_, ?_⟩
  · rw [e1]
    simp
  · rw [e1]
    exact quiet_front_take r1
  · rw [e1]
    exact quiet_front_getD r1
  · rw [e2]
    exact quiet_front_take r2
  · rw [e2]
    exact quiet_front_getD r2

-- ─── Claims ─────────────────────────────────────────────────────────────────

/-- C1 (counterexample): the claim "is_valid(text, format) = false implies
encode(text, format) fails" is false on the code for Code 39: the lowercase
input "a" is rejected by `is_valid` (whose Code 39 arm is case-sensitive) yet
`encode` succeeds, because `encode_code39` uppercases before validating. -/
theorem claim_C1_counterexample :
    is_valid ['a'] .Code39 = false ∧ (encode ['a'] .Code39).isSome = true := by
  decide

/-- C1 (amended): for Code128, Ean13 and UpcA, `is_valid text fmt = false`
implies `encode text fmt` fails; for Code39 the validity predicate in the code
is case-sensitive and `encode` instead fails exactly when the input is empty
or some character of the uppercased input is missing from the Code 39 byte
alphabet. -/
theorem claim_C1_amended :
    (∀ cs : List Char, is_valid cs .Code128 = false → encode cs .Code128 = none) ∧
    (∀ cs : List Char, is_valid cs .Ean13 = false → encode cs .Ean13 = none) ∧
    (∀ cs : List Char, is_valid cs .UpcA = false → encode cs .UpcA = none) ∧
    (∀ cs : List Char, encode cs .Code39 = none ↔
      (cs = [] ∨ ∃ c ∈ cs.map toAsciiUpper, code39_index c = none)) := by
  refine ⟨?_, ?_, ?_, ?_⟩
  · intro cs h
    have hne : cs ≠ [] := by
      rintro rfl
      simp [is_valid] at h
    rw [encode_code128_wrapper hne]
    unfold is_valid at h
    obtain ⟨c, hc, hp⟩ := List.all_eq_false.mp h
    unfold encode_code128
    rw [if_pos]
    intro hcon
    rw [List.all_eq_true] at hcon
    have := hcon c hc
    simp only [Bool.and_eq_true, decide_eq_true_eq] at this hp
    omega
  · intro cs h
    rcases List.eq_nil_or_concat cs with rfl | _
    · exact encode_nil _
    · have hne : cs ≠ [] := by
        rename_i hcc
        obtain ⟨l, a, rfl⟩ := hcc
        simp
      rw [encode_ean13_wrapper hne, encode_ean13_none_iff]
      unfold is_valid at h
      rcases Bool.and_eq_false_iff.mp h with h1 | h2
      · right
        right
        simp only [decide_eq_false_iff_not, Nat.not_le] at h1
        omega
      · exact Or.inl h2
  · intro cs h
    rcases List.eq_nil_or_concat cs with rfl | _
    · exact encode_nil _
    · have hne : cs ≠ [] := by
        rename_i hcc
        obtain ⟨l, a, rfl⟩ := hcc
        simp
      rw [encode_upc_a_wrapper hne, encode_upc_a_none_iff]
      unfold is_valid at h
      rcases Bool.and_eq_false_iff.mp h with h1 | h2
      · right
        right
        simp only [decide_eq_false_iff_not, Nat.not_le] at h1
        omega
      · exact Or.inl h2
  · intro cs
    rcases List.eq_nil_or_concat cs with rfl | hcc
    · simp [encode_nil]
    · have hne : cs ≠ [] := by
        obtain ⟨l, a, rfl⟩ := hcc
        simp
      rw [encode_code39_wrapper hne, encode_code39_none_iff]
      simp [hne]

/-- C1 witness: a concrete character above code point 127 is invalid for
Code 128 and `encode` fails on it. -/
theorem claim_C1_witness : encode ['Ā'] .Code128 = none :=
  claim_C1_amended.1 ['Ā'] (by decide)

/-- C2 (code bug evidence): `encode("j", Code128)` emits the subset-B symbol
value 74, whose row in the width table is the placeholder `[2,1,3,1,3,0]`
summing to 10 modules, not 11; the START_B row 104 also sums to 10. This
contradicts the table's own documentation that every symbol's widths sum to
11 modules. -/
theorem claim_C2_table_bug :
    code128_values ['j'] = some [104, 74, 75, 106] ∧
    CODE128_PATTERNS.getD 74 (List.replicate 6 0) = [2, 1, 3, 1, 3, 0] ∧
    (CODE128_PATTERNS.getD 74 (List.replicate 6 0)).sum = 10 ∧
    (pattern_to_modules (CODE128_PATTERNS.getD 74 (List.replicate 6 0))).length = 10 ∧
    (CODE128_PATTERNS.getD 104 (List.replicate 6 0)).sum = 10 := by
  decide

/-- C3: `encode(text, Ean13)` fails exactly when the text has a non-digit or
its length is outside 12–13; and a 13-digit input with a mismatching check
digit succeeds with the check digit silently corrected in the display text. -/
theorem claim_C3 :
    (∀ cs : List Char, encode cs .Ean13 = none ↔
        (cs.all isAsciiDigit = false ∨ cs.length < 12 ∨ 13 < cs.length)) ∧
    (∀ cs : List Char, cs.all isAsciiDigit = true → cs.length = 13 →
      (cs.map digitVal).getD 12 0 ≠ ean13_check_digit ((cs.map digitVal).take 12) →
      ∃ b, encode cs .Ean13 = some b ∧
        b.text = cs.take 12 ++ [digitChar (ean13_check_digit ((cs.map digitVal).take 12))] ∧
        b.text ≠ cs) := by
  constructor
  · intro cs
    rcases List.eq_nil_or_concat cs with rfl | hcc
    · simp [encode_nil]
    · have hne : cs ≠ [] := by
        obtain ⟨l, a, rfl⟩ := hcc
        simp
      rw [encode_ean13_wrapper hne]
      exact encode_ean13_none_iff cs
  · intro cs hall hlen hne
    have hnn : cs ≠ [] := by
      rintro rfl
      simp at hlen
    have hck9 : ean13_check_digit ((cs.map digitVal).take 12) ≤ 9 := ean13_check_digit_le _
    have henc : encode cs .Ean13
        = some ⟨ean13_layout (ean13_norm (cs.map digitVal)),
                (ean13_norm (cs.map digitVal)).map digitChar, .Ean13⟩ := by
      rw [encode_ean13_wrapper hnn]
      exact encode_ean13_eq hall (Or.inr hlen)
    have htext : (ean13_norm (cs.map digitVal)).map digitChar
        = cs.take 12 ++ [digitChar (ean13_check_digit ((cs.map digitVal).take 12))] := by
      unfold ean13_norm
      rw [List.map_append, ← List.map_take]
      rw [map_digitChar_map_digitVal (all_take hall 12)]
      rfl
    refine ⟨_, henc, htext, ?_⟩
    show ¬ ((ean13_norm (cs.map digitVal)).map digitChar = cs)
    rw [htext]
    intro heq
    have hgd : (cs.take 12
          ++ [digitChar (ean13_check_digit ((cs.map digitVal).take 12))]).getD 12 ' '
        = digitChar (ean13_check_digit ((cs.map digitVal).take 12)) := by
      rw [List.getD_append_right _ _ _ _ (by simp [List.length_take])]
      simp [List.length_take, hlen]
    have hcs := congrArg (fun l => l.getD 12 ' ') heq
    simp only [hgd] at hcs
    apply hne
    rw [List.getD_eq_getElem _ _ (by rw [List.length_map]; omega), List.getElem_map,
      ← List.getD_eq_getElem cs (' ') (by omega), ← hcs, digitVal_digitChar hck9]

/-- C3 witness: "4006381333930" has a wrong check digit 0; encoding succeeds
and the display text carries the corrected digit, differing from the input. -/
theorem claim_C3_witness :
    (encode "40063813339".toList .Ean13 = none) ∧
    (∃ b, encode "4006381333930".toList .Ean13 = some b ∧
      b.text ≠ "4006381333930".toList) := by
  constructor
  · exact (claim_C3.1 "40063813339".toList).mpr (by decide)
  · obtain ⟨b, h1, _, h3⟩ := claim_C3.2 "4006381333930".toList (by decide) (by decide) (by decide)
    exact ⟨b, h1, h3⟩

/-- C4: on a 12-digit input the appended 13th digit is
`(10 - (S mod 10)) mod 10` for the spec's weighted sum `S`, and the given
example encodes to display text "4006381333931". -/
theorem claim_C4 :
    (∀ cs : List Char, cs.all isAsciiDigit = true → cs.length = 12 →
      ∃ b, encode cs .Ean13 = some b ∧
        b.text = cs ++ [digitChar ((10 - eanWeightedSum (cs.map digitVal) % 10) % 10)]) ∧
    (encode "400638133393".toList .Ean13).map Barcode.text
      = some "4006381333931".toList := by
  constructor
  · intro cs hall hlen
    have hnn : cs ≠ [] := by
      rintro rfl
      simp at hlen
    have henc : encode cs .Ean13
        = some ⟨ean13_layout (ean13_norm (cs.map digitVal)),
                (ean13_norm (cs.map digitVal)).map digitChar, .Ean13⟩ := by
      rw [encode_ean13_wrapper hnn]
      exact encode_ean13_eq hall (Or.inl hlen)
    refine ⟨_, henc, ?_⟩
    unfold ean13_norm
    rw [List.take_of_length_le (by rw [List.length_map]; omega)]
    rw [List.map_append, map_digitChar_map_digitVal hall, ean13_check_digit_spec]
    rfl
  · decide

/-- C4 witness: the general 12-digit statement applied to the concrete
example input. -/
theorem claim_C4_witness :
    ∃ b, encode "400638133393".toList .Ean13 = some b ∧
      b.text = "400638133393".toList
        ++ [digitChar ((10 - eanWeightedSum ("400638133393".toList.map digitVal) % 10) % 10)] :=
  claim_C4.1 "400638133393".toList (by decide) (by decide)

/-- C5: every successful encode, in any format, yields a non-empty module
sequence bookended by quiet zones of exactly `quiet_zone fmt` light modules:
the first and last `quiet_zone fmt` modules are light and the modules just
inside them are dark. -/
theorem claim_C5 (cs : List Char) (fmt : BarcodeFormat) (b : Barcode)
    (h : encode cs fmt = some b) :
    b.modules ≠ [] ∧
    b.modules.take (quiet_zone fmt) = List.replicate (quiet_zone fmt) false ∧
    b.modules.getD (quiet_zone fmt) false = true ∧
    b.modules.reverse.take (quiet_zone fmt) = List.replicate (quiet_zone fmt) false ∧
    b.modules.reverse.getD (quiet_zone fmt) false = true := by
  have hne : cs ≠ [] := by
    rintro rfl
    rw [encode_nil] at h
    exact Option.noConfusion h
  cases fmt with
  | Code128 =>
    rw [encode_code128_wrapper hne] at h
    obtain ⟨hs1, hs2⟩ := code128_modules_shapes h
    exact quiet_spec hs1 hs2
  | Code39 =>
    rw [encode_code39_wrapper hne] at h
    obtain ⟨hs1, hs2⟩ := code39_modules_shapes h
    exact quiet_spec hs1 hs2
  | Ean13 =>
    rw [encode_ean13_wrapper hne] at h
    obtain ⟨ds, hds⟩ := encode_ean13_modules h
    rw [hds]
    exact quiet_spec (ean13_layout_shape ds) (ean13_layout_reverse_shape ds)
  | UpcA =>
    rw [encode_upc_a_wrapper hne] at h
    obtain ⟨ds, hds⟩ := encode_upc_a_modules h
    rw [hds]
    exact quiet_spec (ean13_layout_shape ds) (ean13_layout_reverse_shape ds)

/-- C5 witness: the quiet-zone property at a concrete Code 39 encode. -/
theorem claim_C5_witness :
    ∃ b, encode "HELLO".toList .Code39 = some b ∧ b.modules ≠ [] ∧
      b.modules.take 10 = List.replicate 10 false ∧ b.modules.getD 10 false = true := by
  rcases h : encode "HELLO".toList .Code39 with _ | b
  · exact absurd h (by decide)
  · have hc := claim_C5 "HELLO".toList .Code39 b h
    exact ⟨b, rfl, hc.1, hc.2.1, hc.2.2.1⟩

/-- C6: an accepted UPC-A input is laid out by running the EAN-13 encoder on
the zero-prefixed display digits; the display text is the 11 input digits plus
the recomputed check digit (no leading 0) and the format tag is UpcA. -/
theorem claim_C6 (cs : List Char) (hall : cs.all isAsciiDigit = true)
    (hlen : cs.length = 11 ∨ cs.length = 12) :
    ∃ b e, encode cs .UpcA = some b ∧
      encode_ean13 ('0' :: b.text) = some e ∧
      b.modules = e.modules ∧
      b.text = cs.take 11 ++ [digitChar (upc_check_digit ((cs.map digitVal).take 11))] ∧
      b.format = .UpcA := by
  have hne : cs ≠ [] := by
    rintro rfl
    rcases hlen with h | h <;> simp at h
  have henc := encode_upc_a_eq hall hlen
  have h0 : (cs.map digitVal).length = cs.length := List.length_map _ _
  have hle : ∀ d ∈ upc_norm (cs.map digitVal), d ≤ 9 := upc_norm_le (digitVals_le hall)
  have hle0 : ∀ d ∈ (0 :: upc_norm (cs.map digitVal)), d ≤ 9 := by
    intro d hd
    rcases List.mem_cons.1 hd with rfl | hd2
    · omega
    · exact hle d hd2
  have hall2 : (((0 :: upc_norm (cs.map digitVal)).map digitChar).all isAsciiDigit) = true := by
    rw [List.all_eq_true]
    intro c hc
    obtain ⟨d, hd, rfl⟩ := List.mem_map.1 hc
    exact isAsciiDigit_digitChar (hle0 d hd)
  have hlen2 : ((0 :: upc_norm (cs.map digitVal)).map digitChar).length = 13 := by
    rw [List.length_map, List.length_cons, upc_norm_length (by omega)]
  have hroundtrip : (((0 :: upc_norm (cs.map digitVal)).map digitChar).map digitVal)
      = 0 :: upc_norm (cs.map digitVal) := map_digitVal_map_digitChar hle0
  have hean := encode_ean13_eq hall2 (Or.inr hlen2)
  rw [hroundtrip] at hean
  refine ⟨⟨ean13_layout (ean13_norm (0 :: upc_norm (cs.map digitVal))),
    (upc_norm (cs.map digitVal)).map digitChar, .UpcA⟩,
    ⟨ean13_layout (ean13_norm (0 :: upc_norm (cs.map digitVal))),
    (ean13_norm (0 :: upc_norm (cs.map digitVal))).map digitChar, .Ean13⟩,
    by rw [encode_upc_a_wrapper hne]; exact henc, ?_, rfl, ?_, rfl⟩
  · show encode_ean13 ('0' :: (upc_norm (cs.map digitVal)).map digitChar) = _
    rw [show ('0' :: (upc_norm (cs.map digitVal)).map digitChar)
        = (0 :: upc_norm (cs.map digitVal)).map digitChar from rfl]
    exact hean
  · show (upc_norm (cs.map digitVal)).map digitChar = _
    unfold upc_norm
    rw [List.map_append, ← List.map_take, map_digitChar_map_digitVal (all_take hall 11)]
    rfl

/-- C6 witness: the UPC-A refinement at the concrete spec example input. -/
theorem claim_C6_witness :
    ∃ b e, encode "03600029145".toList .UpcA = some b ∧
      encode_ean13 ('0' :: b.text) = some e ∧
      b.modules = e.modules ∧
      b.text = "03600029145".toList.take 11
        ++ [digitChar (upc_check_digit (("03600029145".toList.map digitVal).take 11))] ∧
      b.format = .UpcA :=
  claim_C6 "03600029145".toList (by decide) (by decide)

/-- C7: `auto_detect` is an ordered rule list — all-digit length-13 text gives
Ean13, all-digit length-12 gives UpcA, otherwise Code39-alphabet text gives
Code39, and anything else gives Code128 — with the spec's four examples. -/
theorem claim_C7 :
    (∀ cs : List Char, cs.all isAsciiDigit = true → cs.length = 13 →
      auto_detect cs = .Ean13) ∧
    (∀ cs : List Char, cs.all isAsciiDigit = true → cs.length = 12 →
      auto_detect cs = .UpcA) ∧
    (∀ cs : List Char, cs.all code39ValidChar = true →
      ¬ (cs.all isAsciiDigit = true ∧ (cs.length = 13 ∨ cs.length = 12)) →
      auto_detect cs = .Code39) ∧
    (∀ cs : List Char, cs.all code39ValidChar = false → auto_detect cs = .Code128) ∧
    auto_detect "1234567890123".toList = .Ean13 ∧
    auto_detect "123456789012".toList = .UpcA ∧
    auto_detect "HELLO-123".toList = .Code39 ∧
    auto_detect "Hello, World!".toList = .Code128 := by
  refine ⟨?_, ?_, ?_, ?_, by decide, by decide, by decide, by decide⟩
  · intro cs h1 h2
    unfold auto_detect
    dsimp only
    rw [if_pos (by simp [h1, h2])]
  · intro cs h1 h2
    unfold auto_detect
    dsimp only
    rw [if_neg (by simp [h2]), if_pos (by simp [h1, h2])]
  · intro cs hv hnot
    unfold auto_detect
    dsimp only
    cases hd : cs.all isAsciiDigit with
    | false => rw [if_neg (by simp [hd]), if_neg (by simp [hd]), if_pos hv]
    | true =>
      have h13 : cs.length ≠ 13 := fun hh => hnot ⟨hd, Or.inl hh⟩
      have h12 : cs.length ≠ 12 := fun hh => hnot ⟨hd, Or.inr hh⟩
      rw [if_neg (by simp [hd, h13]), if_neg (by simp [hd, h12]), if_pos hv]
  · intro cs hv
    have hdig : cs.all isAsciiDigit = false := by
      cases hx : cs.all isAsciiDigit with
      | false => rfl
      | true =>
        have := all_mono hx isAsciiDigit_valid39
        rw [hv] at this
        exact Bool.noConfusion this
    unfold auto_detect
    dsimp only
    rw [if_neg (by simp [hdig]), if_neg (by simp [hdig]), if_neg (by simp [hv])]

/-- C7 witness: each of the four rules applied at a concrete input. -/
theorem claim_C7_witness :
    auto_detect "1111111111111".toList = .Ean13 ∧
    auto_detect "222222222222".toList = .UpcA ∧
    auto_detect "AB-12".toList = .Code39 ∧
    auto_detect "ab".toList = .Code128 :=
  ⟨claim_C7.1 _ (by decide) (by decide),
   claim_C7.2.1 _ (by decide) (by decide),
   claim_C7.2.2.1 _ (by decide) (by decide),
   claim_C7.2.2.2.1 _ (by decide)⟩

/-- C8: Code 39 encoding is insensitive to the case of its input — encoding
the uppercased text gives the same result — and the display text of a
successful encode is the uppercased input; in particular "abc" and "ABC"
encode identically. -/
theorem claim_C8 :
    (∀ cs : List Char, encode (cs.map toAsciiUpper) .Code39 = encode cs .Code39) ∧
    (∀ (cs : List Char) (b : Barcode), encode cs .Code39 = some b →
      b.text = cs.map toAsciiUpper) ∧
    encode "abc".toList .Code39 = encode "ABC".toList .Code39 := by
  refine ⟨?_, ?_, by decide⟩
  · intro cs
    cases cs with
    | nil => rfl
    | cons c t =>
      rw [encode_code39_wrapper (by simp), encode_code39_wrapper (by simp)]
      unfold encode_code39
      rw [map_toAsciiUpper_idem]
  · intro cs b h
    have hne : cs ≠ [] := by
      rintro rfl
      rw [encode_nil] at h
      exact Option.noConfusion h
    rw [encode_code39_wrapper hne] at h
    exact (encode_code39_some h).1

/-- C8 witness: case-insensitivity at the concrete input "hello". -/
theorem claim_C8_witness :
    encode ("hello".toList.map toAsciiUpper) .Code39 = encode "hello".toList .Code39 ∧
    ∃ b, encode "hello".toList .Code39 = some b ∧
      b.text = "hello".toList.map toAsciiUpper := by
  refine ⟨claim_C8.1 "hello".toList, ?_⟩
  rcases h : encode "hello".toList .Code39 with _ | b
  · exact absurd h (by decide)
  · exact ⟨b, rfl, claim_C8.2.1 "hello".toList b h⟩

/-- C9: encode is total and in range everywhere — every emitted Code 128
symbol value is below the 107-row table bound, the checksum is reduced below
103, every Code 39 index is below 44, every EAN digit value and check digit is
at most 9, and `encode` always returns `none` or a `Barcode`. -/
theorem claim_C9 :
    (∀ (cs : List Char) (vals : List Nat), code128_values cs = some vals →
      ∀ v ∈ vals, v < 107) ∧
    (∀ (start : Nat) (rest : List Nat), code128_checksum start rest < 103) ∧
    (∀ (c : Char) (i : Nat), code39_index c = some i → i < 44) ∧
    (∀ c : Char, isAsciiDigit c = true → digitVal c ≤ 9) ∧
    (∀ ds : List Nat, ean13_check_digit ds ≤ 9) ∧
    (∀ ds : List Nat, upc_check_digit ds ≤ 9) ∧
    (∀ (cs : List Char) (fmt : BarcodeFormat),
      encode cs fmt = none ∨ ∃ b, encode cs fmt = some b) := by
  refine ⟨fun cs vals h => code128_values_lt h, fun s r => code128_checksum_lt s r,
    fun c i h => code39_index_lt h, fun c h => digitVal_le_nine h,
    ean13_check_digit_le, upc_check_digit_le, ?_⟩
  intro cs fmt
  cases h : encode cs fmt with
  | none => exact Or.inl rfl
  | some b => exact Or.inr ⟨b, rfl⟩

/-- C9 witness: the bounds at concrete inputs. -/
theorem claim_C9_witness :
    (∀ v ∈ [105, 12, 34, 100, 21, 54, 106], v < 107) ∧ (3 < 44) ∧ digitVal '7' ≤ 9 :=
  ⟨claim_C9.1 "12345".toList _ (by decide), claim_C9.2.2.1 '3' 3 (by decide),
   claim_C9.2.2.2.1 '7' (by decide)⟩

/-- C10: every successful EAN-13 encode — and every successful UPC-A encode,
which shares the layout — produces exactly 113 modules. -/
theorem claim_C10 :
    (∀ (cs : List Char) (b : Barcode), encode cs .Ean13 = some b →
      b.modules.length = 113) ∧
    (∀ (cs : List Char) (b : Barcode), encode cs .UpcA = some b →
      b.modules.length = 113) := by
  constructor
  · intro cs b h
    have hne : cs ≠ [] := by
      rintro rfl
      rw [encode_nil] at h
      exact Option.noConfusion h
    rw [encode_ean13_wrapper hne] at h
    obtain ⟨ds, hds⟩ := encode_ean13_modules h
    rw [hds, ean13_layout_length]
  · intro cs b h
    have hne : cs ≠ [] := by
      rintro rfl
      rw [encode_nil] at h
      exact Option.noConfusion h
    rw [encode_upc_a_wrapper hne] at h
    obtain ⟨ds, hds⟩ := encode_upc_a_modules h
    rw [hds, ean13_layout_length]

/-- C10 witness: the 113-module count at a concrete UPC-A encode. -/
theorem claim_C10_witness :
    ∃ b, encode "036000291452".toList .UpcA = some b ∧ b.modules.length = 113 := by
  rcases h : encode "036000291452".toList .UpcA with _ | b
  · exact absurd h (by decide)
  · exact ⟨b, rfl, claim_C10.2 _ b h⟩
end BarcodeEnc
